import Mathlib

/-!
Shallow embedding of the macro-expansion stage of the red-sea-pp
preprocessor (src/src/lib.rs), together with theorems checking the
natural-language specification against the code.

The Rust code models streams as a pull-based `Source` trait whose `next`
returns an `Atom` (Datum / Error / Empty).  Here a source implementation
over a state type `sigma` is a function `sigma -> Atom D E x sigma`:
calling `next(&mut self)` corresponds to applying the function to the
current state, obtaining the produced atom and the updated state.
-/

namespace RedSeaPP

/-- Rust `enum HeaderKind` (src/src/lib.rs lines 125-129). -/
inductive HeaderKind
  | SystemPath
  | UserPath
deriving DecidableEq

/-- Rust `enum Separation` (src/src/lib.rs lines 118-123): whether a
left paren is preceded by whitespace. -/
inductive Separation
  | Whitespace
  | None
deriving DecidableEq

/-- Rust `enum Punctuator` (src/src/lib.rs lines 57-116), the full C
punctuator set, in source order. -/
inductive Punctuator
  | ArrayIndexBegin
  | ArrayIndexEnd
  | LeftParen : Separation → Punctuator
  | RightParen
  | BlockBegin
  | BlockEnd
  | Member
  | DerefMember
  | Increment
  | Decrement
  | AddressOf
  | Deference
  | Add
  | Substract
  | BitwiseNot
  | LogicalNot
  | Divide
  | Modulus
  | ShiftLeft
  | ShiftRight
  | LessThan
  | GreaterThan
  | LessThanOrEquals
  | GreaterThanOrEquals
  | Equals
  | NotEquals
  | BitwiseXor
  | BitwiseOr
  | LogicalAnd
  | LogicalOr
  | TernaryCondition
  | TernarySeparator
  | StatementEnd
  | VariadicParameters
  | Assignment
  | MultiplyAndAssign
  | DivideAndAssign
  | ModulusAndAssign
  | AddAndAssign
  | SubstractAndAssign
  | ShiftLeftAndAssign
  | ShiftRightAndAssign
  | BitwiseAndAndAssign
  | BitwiseXorAndAssign
  | BitwiseOrAndAssign
  | ParameterSeparator
  | PreprocessingDirective
  | PreprocessingConcat
  | ArrayIndexBeginDigraph
  | ArrayIndexEndDigraph
  | BlockBeginDigraph
  | BlockEndDigraph
  | PreprocessingDirectiveDigraph
  | PreprocessingConcatDigraph

/-- The punctuators listed in declaration order, with the two LeftParen
variants spelled out; used only to build the decidable-equality
instance. -/
def Punctuator.all : List Punctuator :=
  [Punctuator.ArrayIndexBegin, Punctuator.ArrayIndexEnd,
   Punctuator.LeftParen Separation.Whitespace,
   Punctuator.LeftParen Separation.None,
   Punctuator.RightParen, Punctuator.BlockBegin, Punctuator.BlockEnd,
   Punctuator.Member, Punctuator.DerefMember, Punctuator.Increment,
   Punctuator.Decrement, Punctuator.AddressOf, Punctuator.Deference,
   Punctuator.Add, Punctuator.Substract, Punctuator.BitwiseNot,
   Punctuator.LogicalNot, Punctuator.Divide, Punctuator.Modulus,
   Punctuator.ShiftLeft, Punctuator.ShiftRight, Punctuator.LessThan,
   Punctuator.GreaterThan, Punctuator.LessThanOrEquals,
   Punctuator.GreaterThanOrEquals, Punctuator.Equals, Punctuator.NotEquals,
   Punctuator.BitwiseXor, Punctuator.BitwiseOr, Punctuator.LogicalAnd,
   Punctuator.LogicalOr, Punctuator.TernaryCondition,
   Punctuator.TernarySeparator, Punctuator.StatementEnd,
   Punctuator.VariadicParameters, Punctuator.Assignment,
   Punctuator.MultiplyAndAssign, Punctuator.DivideAndAssign,
   Punctuator.ModulusAndAssign, Punctuator.AddAndAssign,
   Punctuator.SubstractAndAssign, Punctuator.ShiftLeftAndAssign,
   Punctuator.ShiftRightAndAssign, Punctuator.BitwiseAndAndAssign,
   Punctuator.BitwiseXorAndAssign, Punctuator.BitwiseOrAndAssign,
   Punctuator.ParameterSeparator, Punctuator.PreprocessingDirective,
   Punctuator.PreprocessingConcat, Punctuator.ArrayIndexBeginDigraph,
   Punctuator.ArrayIndexEndDigraph, Punctuator.BlockBeginDigraph,
   Punctuator.BlockEndDigraph, Punctuator.PreprocessingDirectiveDigraph,
   Punctuator.PreprocessingConcatDigraph]

/-- Injective numeric code of a punctuator: its index in
`Punctuator.all`. -/
def Punctuator.code : Punctuator → Nat
  | Punctuator.ArrayIndexBegin => 0
  | Punctuator.ArrayIndexEnd => 1
  | Punctuator.LeftParen Separation.Whitespace => 2
  | Punctuator.LeftParen Separation.None => 3
  | Punctuator.RightParen => 4
  | Punctuator.BlockBegin => 5
  | Punctuator.BlockEnd => 6
  | Punctuator.Member => 7
  | Punctuator.DerefMember => 8
  | Punctuator.Increment => 9
  | Punctuator.Decrement => 10
  | Punctuator.AddressOf => 11
  | Punctuator.Deference => 12
  | Punctuator.Add => 13
  | Punctuator.Substract => 14
  | Punctuator.BitwiseNot => 15
  | Punctuator.LogicalNot => 16
  | Punctuator.Divide => 17
  | Punctuator.Modulus => 18
  | Punctuator.ShiftLeft => 19
  | Punctuator.ShiftRight => 20
  | Punctuator.LessThan => 21
  | Punctuator.GreaterThan => 22
  | Punctuator.LessThanOrEquals => 23
  | Punctuator.GreaterThanOrEquals => 24
  | Punctuator.Equals => 25
  | Punctuator.NotEquals => 26
  | Punctuator.BitwiseXor => 27
  | Punctuator.BitwiseOr => 28
  | Punctuator.LogicalAnd => 29
  | Punctuator.LogicalOr => 30
  | Punctuator.TernaryCondition => 31
  | Punctuator.TernarySeparator => 32
  | Punctuator.StatementEnd => 33
  | Punctuator.VariadicParameters => 34
  | Punctuator.Assignment => 35
  | Punctuator.MultiplyAndAssign => 36
  | Punctuator.DivideAndAssign => 37
  | Punctuator.ModulusAndAssign => 38
  | Punctuator.AddAndAssign => 39
  | Punctuator.SubstractAndAssign => 40
  | Punctuator.ShiftLeftAndAssign => 41
  | Punctuator.ShiftRightAndAssign => 42
  | Punctuator.BitwiseAndAndAssign => 43
  | Punctuator.BitwiseXorAndAssign => 44
  | Punctuator.BitwiseOrAndAssign => 45
  | Punctuator.ParameterSeparator => 46
  | Punctuator.PreprocessingDirective => 47
  | Punctuator.PreprocessingConcat => 48
  | Punctuator.ArrayIndexBeginDigraph => 49
  | Punctuator.ArrayIndexEndDigraph => 50
  | Punctuator.BlockBeginDigraph => 51
  | Punctuator.BlockEndDigraph => 52
  | Punctuator.PreprocessingDirectiveDigraph => 53
  | Punctuator.PreprocessingConcatDigraph => 54

/-- Decoding a punctuator's code recovers the punctuator. -/
theorem Punctuator.decode_code (p : Punctuator) :
    Punctuator.all.get? p.code = some p := by
  cases p with
  | LeftParen s => cases s <;> rfl
  | _ => rfl

instance : DecidableEq Punctuator := fun a b =>
  if h : a.code = b.code then
    isTrue (by
      have h2 := congrArg Punctuator.all.get? h
      rw [Punctuator.decode_code, Punctuator.decode_code] at h2
      exact Option.some.inj h2)
  else
    isFalse (fun he => h (congrArg Punctuator.code he))

/-- Rust `type Identifier = String` (src/src/lib.rs line 34). -/
abbrev Identifier := String

/-- Rust `enum PreprocessingToken` (src/src/lib.rs lines 36-50). -/
inductive PreprocessingToken
  | HeaderName : HeaderKind → String → PreprocessingToken
  | Identifier : String → PreprocessingToken
  | PreprocessingNumber : String → PreprocessingToken
  | CharacterConstant : Char → PreprocessingToken
  | StringLiteral : String → PreprocessingToken
  | Punctuator : Punctuator → PreprocessingToken
  | OtherCharacter : Char → PreprocessingToken
  | Newline
deriving DecidableEq

/-- Rust `enum Atom` (src/src/lib.rs lines 23-27): the unit of
information produced by a `Source`; Datum, Error, or Empty. -/
inductive Atom (DatumType ErrorType : Type)
  | Datum : DatumType → Atom DatumType ErrorType
  | Error : ErrorType → Atom DatumType ErrorType
  | Empty : Atom DatumType ErrorType
deriving DecidableEq

/-- Rust `type Tokens = Vec<PreprocessingToken>` (src/src/lib.rs line 131). -/
def Tokens := List PreprocessingToken

/-- Rust `type Parameters = Vec<Identifier>` (src/src/lib.rs line 132). -/
def Parameters := List String

/-- Rust `enum Macro` (src/src/lib.rs lines 140-143): Object macros
carry a replacement list; Function macros carry parameters and a
replacement list. -/
inductive Macro
  | Object : List PreprocessingToken → Macro
  | Function : List String → List PreprocessingToken → Macro
deriving DecidableEq

/-- Rust `struct Macros` (src/src/lib.rs lines 145-147): a map from
identifier to Macro.  The Rust `HashMap` is embedded as an association
list with key lookup; the code under test never reads the table, so only
the key set matters to any claim. -/
structure Macros where
  definitions : List (String × Macro)
deriving DecidableEq

/-- Rust `Macros::new` (src/src/lib.rs lines 150-154). -/
def Macros.new : Macros := ⟨[]⟩

/-- Whether the table defines the given name (membership in the HashMap
key set). -/
def Macros.isDefined (m : Macros) (name : String) : Bool :=
  (m.definitions.lookup name).isSome

/-- A source implementation over state type `sigma`: the Rust
`Source<DatumType, ErrorType>` trait method
`fn next(&mut self) -> Atom<DatumType, ErrorType>` becomes a function
from the state to the produced atom and the updated state. -/
def SourceImpl (σ DatumType ErrorType : Type) : Type :=
  σ → Atom DatumType ErrorType × σ

/-- Rust `struct MacroExpandingTokenSource` (src/src/lib.rs lines
162-165): a macro table plus a mutable borrow of an upstream token
source (the borrow is embedded as the upstream source's state). -/
structure MacroExpandingTokenSource (σ : Type) where
  macros : Macros
  token_stream : σ
deriving DecidableEq

/-- Rust `MacroExpandingTokenSource::new` (src/src/lib.rs lines 168-176). -/
def MacroExpandingTokenSource.new (σ : Type) (m : Macros) (ts : σ) :
    MacroExpandingTokenSource σ :=
  { macros := m, token_stream := ts }

/-- Rust `impl Source for MacroExpandingTokenSource`, method `next`
(src/src/lib.rs lines 179-187): pull one atom from the upstream
`token_stream` and match on it, returning `Datum(token)`, `Error(error)`
or `Empty` accordingly.  `up` is the upstream source implementation. -/
def MacroExpandingTokenSource.next (up : SourceImpl σ PreprocessingToken String)
    (s : MacroExpandingTokenSource σ) :
    Atom PreprocessingToken String × MacroExpandingTokenSource σ :=
  match up s.token_stream with
  | (Atom.Datum token, ts) => (Atom.Datum token, { s with token_stream := ts })
  | (Atom.Error error, ts) => (Atom.Error error, { s with token_stream := ts })
  | (Atom.Empty, ts) => (Atom.Empty, { s with token_stream := ts })

/-- Rust test helper `struct TestTokenSource` (src/src/lib.rs lines
197-208): a FIFO queue of tokens. -/
structure TestTokenSource where
  token_queue : List PreprocessingToken
deriving DecidableEq

/-- Rust `TestTokenSource::new` (src/src/lib.rs lines 201-209): copies
the given tokens into the queue in order. -/
def TestTokenSource.new (tokens : List PreprocessingToken) : TestTokenSource :=
  ⟨tokens⟩

/-- Rust `impl Source for TestTokenSource`, method `next` (src/src/lib.rs
lines 211-218): pop the front of the queue, yielding `Datum(token)` if
present and `Empty` once the queue is exhausted. -/
def TestTokenSource.next (s : TestTokenSource) :
    Atom PreprocessingToken String × TestTokenSource :=
  match s.token_queue with
  | [] => (Atom.Empty, ⟨[]⟩)
  | token :: rest => (Atom.Datum token, ⟨rest⟩)

/-- Observe a source: the list of the first `n` atoms produced by
repeatedly calling `next` from state `s`. -/
def runSource (next : SourceImpl σ D E) : Nat → σ → List (Atom D E)
  | 0, _ => []
  | n + 1, s => (next s).fst :: runSource next n (next s).snd

/-- The token is an identifier defined in the macro table. -/
def Macros.definesIdent (m : Macros) : PreprocessingToken → Bool
  | PreprocessingToken.Identifier name => m.isDefined name
  | _ => false

/-- The token list contains no identifier present in the macro table. -/
def NoMacroTableIdentifiers (m : Macros) (ts : List PreprocessingToken) : Prop :=
  ∀ t ∈ ts, m.definesIdent t = false

instance (m : Macros) (ts : List PreprocessingToken) :
    Decidable (NoMacroTableIdentifiers m ts) :=
  List.decidableBAll _ ts

/-- A source permanently exhausts: once `next` returns Empty, every
subsequent call returns Empty. -/
def IdempotentExhaustion (next : SourceImpl σ D E) : Prop :=
  ∀ s : σ, (next s).fst = Atom.Empty →
    ∀ n : Nat, runSource next n (next s).snd = List.replicate n Atom.Empty

/-- One step of the expander: the produced atom is exactly the upstream
atom, the macro table is untouched, and the upstream state advances by
exactly one upstream pull. -/
theorem expandNext_eq {σ : Type} (up : SourceImpl σ PreprocessingToken String)
    (s : MacroExpandingTokenSource σ) :
    MacroExpandingTokenSource.next up s
      = ((up s.token_stream).fst, ⟨s.macros, (up s.token_stream).snd⟩) := by
  rcases h : up s.token_stream with ⟨a, ts⟩
  cases a <;> simp [MacroExpandingTokenSource.next, h]

/-- Any run of the expander observes exactly the upstream run. -/
theorem expand_run_eq {σ : Type} (up : SourceImpl σ PreprocessingToken String) :
    ∀ (n : Nat) (s : MacroExpandingTokenSource σ),
      runSource (MacroExpandingTokenSource.next up) n s
        = runSource up n s.token_stream
  | 0, _ => rfl
  | n + 1, s => by
    rw [runSource, runSource, expandNext_eq]
    exact congrArg _ (expand_run_eq up n ⟨s.macros, (up s.token_stream).snd⟩)

/-- An exhausted test source keeps producing Empty forever. -/
theorem test_run_nil (n : Nat) :
    runSource TestTokenSource.next n (TestTokenSource.new [])
      = List.replicate n Atom.Empty := by
  induction n with
  | zero => rfl
  | succ k ih =>
    rw [runSource, List.replicate]
    exact congrArg _ ih

/-- A test source over `ts` yields each token as a Datum in order, then
Empty forever. -/
theorem test_run_tokens :
    ∀ (ts : List PreprocessingToken) (n : Nat),
      runSource TestTokenSource.next (ts.length + n) (TestTokenSource.new ts)
        = ts.map Atom.Datum ++ List.replicate n Atom.Empty
  | [], n => by simpa using test_run_nil n
  | t :: rest, n => by
    have hl : (t :: rest).length + n = (rest.length + n) + 1 := by
      simp [List.length_cons]
      omega
    rw [hl, runSource]
    simpa [TestTokenSource.next, TestTokenSource.new]
      using test_run_tokens rest n

/-- The atom is an Error. -/
def Atom.isError : Atom D E → Bool
  | Atom.Error _ => true
  | _ => false

/-- A table defining FOO as an Object macro with replacement [1, +, 2]. -/
def fooMacros : Macros :=
  ⟨[(("FOO"), Macro.Object [PreprocessingToken.PreprocessingNumber ("1"),
      PreprocessingToken.Punctuator Punctuator.Add,
      PreprocessingToken.PreprocessingNumber ("2")])]⟩

/-- A table defining A as an Object macro whose replacement is the
identifier A itself. -/
def selfRefMacros : Macros :=
  ⟨[(("A"), Macro.Object [PreprocessingToken.Identifier ("A")])]⟩

/-- A table defining ADD as a Function macro with parameters (a, b) and
replacement [a, +, b]. -/
def addMacros : Macros :=
  ⟨[(("ADD"), Macro.Function [("a"), ("b")]
      [PreprocessingToken.Identifier ("a"),
       PreprocessingToken.Punctuator Punctuator.Add,
       PreprocessingToken.Identifier ("b")])]⟩

/-- A table defining F as a Function macro with parameter x and
replacement [x]. -/
def fMacros : Macros :=
  ⟨[(("F"), Macro.Function [("x")] [PreprocessingToken.Identifier ("x")])]⟩

/-- C1: the claim says expanding the single identifier FOO under a table
defining FOO as an Object macro with replacement [1, +, 2] produces
[1, +, 2].  The code's `next` is a pass-through: at that exact input it
yields the identifier FOO unchanged followed by Empty, not the
replacement list. -/
theorem c1_object_macro_not_substituted :
    runSource (MacroExpandingTokenSource.next TestTokenSource.next) 2
      ⟨fooMacros, TestTokenSource.new [PreprocessingToken.Identifier ("FOO")]⟩
      = [Atom.Datum (PreprocessingToken.Identifier ("FOO")), Atom.Empty]
    ∧ runSource (MacroExpandingTokenSource.next TestTokenSource.next) 4
      ⟨fooMacros, TestTokenSource.new [PreprocessingToken.Identifier ("FOO")]⟩
      ≠ [Atom.Datum (PreprocessingToken.PreprocessingNumber ("1")),
         Atom.Datum (PreprocessingToken.Punctuator Punctuator.Add),
         Atom.Datum (PreprocessingToken.PreprocessingNumber ("2")),
         Atom.Empty] := by
  constructor <;> decide

/-- C2: a stream containing no identifiers present in the macro table is
yielded unchanged, in order, with no tokens added or removed: the run of
the expander over such a stream is each token as a Datum, in order,
followed by Empty. -/
theorem c2_pass_through (m : Macros) (ts : List PreprocessingToken)
    (h : NoMacroTableIdentifiers m ts) :
    runSource (MacroExpandingTokenSource.next TestTokenSource.next)
      (ts.length + 1) ⟨m, TestTokenSource.new ts⟩
      = ts.map Atom.Datum ++ [Atom.Empty] := by
  rw [expand_run_eq]
  simpa using test_run_tokens ts 1

/-- Witness for C2 at the repository test's own input: tokens
[A, B, 1234] with an empty table. -/
theorem c2_pass_through_witness :
    runSource (MacroExpandingTokenSource.next TestTokenSource.next) 4
      ⟨Macros.new, TestTokenSource.new [PreprocessingToken.Identifier ("A"),
        PreprocessingToken.Identifier ("B"),
        PreprocessingToken.PreprocessingNumber ("1234")]⟩
      = [Atom.Datum (PreprocessingToken.Identifier ("A")),
         Atom.Datum (PreprocessingToken.Identifier ("B")),
         Atom.Datum (PreprocessingToken.PreprocessingNumber ("1234")),
         Atom.Empty] := by
  simpa using c2_pass_through Macros.new
    [PreprocessingToken.Identifier ("A"), PreprocessingToken.Identifier ("B"),
     PreprocessingToken.PreprocessingNumber ("1234")] (by decide)

/-- C3: if the atom pulled from upstream is an Error, `next` returns that
same Error; if it is Empty, `next` returns Empty — propagation with no
recovery. -/
theorem c3_error_empty_propagated {σ : Type}
    (up : SourceImpl σ PreprocessingToken String)
    (s : MacroExpandingTokenSource σ) :
    (∀ e : String, (up s.token_stream).fst = Atom.Error e →
      (MacroExpandingTokenSource.next up s).fst = Atom.Error e)
    ∧ ((up s.token_stream).fst = Atom.Empty →
      (MacroExpandingTokenSource.next up s).fst = Atom.Empty) := by
  rw [expandNext_eq]
  exact ⟨fun e he => he, fun he => he⟩

/-- A source that always fails with the same error message. -/
def alwaysFailingSource : SourceImpl Unit PreprocessingToken String :=
  fun u => (Atom.Error ("bad unit"), u)

/-- Witness for C3: a concrete erroring upstream and a concrete exhausted
upstream. -/
theorem c3_error_empty_propagated_witness :
    (MacroExpandingTokenSource.next alwaysFailingSource
      ⟨Macros.new, ()⟩).fst = Atom.Error ("bad unit")
    ∧ (MacroExpandingTokenSource.next TestTokenSource.next
      ⟨Macros.new, TestTokenSource.new []⟩).fst = Atom.Empty :=
  ⟨(c3_error_empty_propagated alwaysFailingSource ⟨Macros.new, ()⟩).1
      ("bad unit") rfl,
   (c3_error_empty_propagated TestTokenSource.next
      ⟨Macros.new, TestTokenSource.new []⟩).2 rfl⟩

/-- C4: with A defined as an Object macro whose replacement is A itself,
expanding the single-token stream [A] yields exactly the token A and then
Empty forever: for every extra number of pulls the observed run is
[Datum A, Empty, Empty, ...], so the expansion terminates and never
diverges. -/
theorem c4_self_reference_terminates (n : Nat) :
    runSource (MacroExpandingTokenSource.next TestTokenSource.next) (1 + (n + 1))
      ⟨selfRefMacros, TestTokenSource.new [PreprocessingToken.Identifier ("A")]⟩
      = Atom.Datum (PreprocessingToken.Identifier ("A"))
        :: List.replicate (n + 1) Atom.Empty := by
  rw [expand_run_eq]
  simpa using
    test_run_tokens [PreprocessingToken.Identifier ("A")] (n + 1)

/-- C5: the claim says invoking the Function macro ADD (of arity 2) with
one argument returns an ArityMismatch Error.  The code's `next` is a
pass-through: on the stream [ADD, LeftParen, 1, RightParen] it yields the
four tokens unchanged, then Empty, and no atom in the run is an Error. -/
theorem c5_arity_mismatch_not_detected :
    runSource (MacroExpandingTokenSource.next TestTokenSource.next) 5
      ⟨addMacros, TestTokenSource.new [PreprocessingToken.Identifier ("ADD"),
        PreprocessingToken.Punctuator (Punctuator.LeftParen Separation.None),
        PreprocessingToken.PreprocessingNumber ("1"),
        PreprocessingToken.Punctuator Punctuator.RightParen]⟩
      = [Atom.Datum (PreprocessingToken.Identifier ("ADD")),
         Atom.Datum (PreprocessingToken.Punctuator
           (Punctuator.LeftParen Separation.None)),
         Atom.Datum (PreprocessingToken.PreprocessingNumber ("1")),
         Atom.Datum (PreprocessingToken.Punctuator Punctuator.RightParen),
         Atom.Empty]
    ∧ (runSource (MacroExpandingTokenSource.next TestTokenSource.next) 5
        ⟨addMacros, TestTokenSource.new [PreprocessingToken.Identifier ("ADD"),
          PreprocessingToken.Punctuator (Punctuator.LeftParen Separation.None),
          PreprocessingToken.PreprocessingNumber ("1"),
          PreprocessingToken.Punctuator Punctuator.RightParen]⟩).all
        (fun a => !a.isError) = true := by
  constructor <;> decide

/-- C6: exhaustion is permanent and idempotent.  The TestTokenSource
satisfies it unconditionally (once its queue is empty it keeps returning
Empty), and the MacroExpandingTokenSource satisfies it whenever its
upstream source does, since it forwards the upstream atom verbatim. -/
theorem c6_exhaustion_idempotent :
    IdempotentExhaustion TestTokenSource.next
    ∧ ∀ (σ : Type) (up : SourceImpl σ PreprocessingToken String),
        IdempotentExhaustion up →
        IdempotentExhaustion (MacroExpandingTokenSource.next up) := by
  constructor
  · intro s h n
    rcases s with ⟨q⟩
    cases q with
    | nil => simpa [TestTokenSource.next] using test_run_nil n
    | cons t rest => simp [TestTokenSource.next] at h
  · intro σ up hup s h n
    rw [expandNext_eq] at h ⊢
    rw [expand_run_eq]
    exact hup s.token_stream h n

/-- Witness for C6: the expander over an exhausted test source has
returned Empty once, and the next three pulls all return Empty. -/
theorem c6_exhaustion_idempotent_witness :
    (MacroExpandingTokenSource.next TestTokenSource.next
      ⟨Macros.new, TestTokenSource.new []⟩).fst = Atom.Empty
    ∧ runSource (MacroExpandingTokenSource.next TestTokenSource.next) 3
      (MacroExpandingTokenSource.next TestTokenSource.next
        ⟨Macros.new, TestTokenSource.new []⟩).snd
      = [Atom.Empty, Atom.Empty, Atom.Empty] := by
  refine ⟨rfl, ?_⟩
  have h := c6_exhaustion_idempotent.2 TestTokenSource TestTokenSource.next
    c6_exhaustion_idempotent.1 ⟨Macros.new, TestTokenSource.new []⟩ rfl 3
  simpa using h

/-- C7: with F defined as a Function macro, a bare occurrence of the
identifier F whose following tokens (past any newlines) do not start with
a left parenthesis is yielded unchanged by `next`. -/
theorem c7_no_invocation_without_paren (m : Macros)
    (params : List String) (body : List PreprocessingToken)
    (rest : List PreprocessingToken)
    (hm : m.definitions.lookup ("F") = some (Macro.Function params body))
    (hrest : ∀ sep : Separation,
      (rest.dropWhile (fun t => decide (t = PreprocessingToken.Newline))).head?
        ≠ some (PreprocessingToken.Punctuator (Punctuator.LeftParen sep))) :
    (MacroExpandingTokenSource.next TestTokenSource.next
      ⟨m, TestTokenSource.new (PreprocessingToken.Identifier ("F") :: rest)⟩).fst
      = Atom.Datum (PreprocessingToken.Identifier ("F")) :=
  rfl

/-- Witness for C7: F defined as the identity Function macro, upstream
stream consisting of the bare identifier F alone. -/
theorem c7_no_invocation_without_paren_witness :
    fMacros.definitions.lookup ("F")
      = some (Macro.Function [("x")] [PreprocessingToken.Identifier ("x")])
    ∧ (MacroExpandingTokenSource.next TestTokenSource.next
      ⟨fMacros, TestTokenSource.new [PreprocessingToken.Identifier ("F")]⟩).fst
      = Atom.Datum (PreprocessingToken.Identifier ("F")) :=
  ⟨by decide,
   c7_no_invocation_without_paren fMacros [("x")]
     [PreprocessingToken.Identifier ("x")] [] (by decide)
     (fun sep => by simp)⟩

/-- C8: on an already-fully-expanded stream (no identifier of the stream
is in the macro table) the expander is a no-op — its run equals the
upstream run — and stacking a second expander over the first with the
same table observes exactly the same atoms as the single expander. -/
theorem c8_expansion_idempotent (m : Macros) (ts : List PreprocessingToken)
    (h : NoMacroTableIdentifiers m ts) (n : Nat) :
    runSource (MacroExpandingTokenSource.next
        (MacroExpandingTokenSource.next TestTokenSource.next)) n
      ⟨m, ⟨m, TestTokenSource.new ts⟩⟩
      = runSource (MacroExpandingTokenSource.next TestTokenSource.next) n
        ⟨m, TestTokenSource.new ts⟩
    ∧ runSource (MacroExpandingTokenSource.next TestTokenSource.next) n
        ⟨m, TestTokenSource.new ts⟩
      = runSource TestTokenSource.next n (TestTokenSource.new ts) := by
  refine ⟨?_, expand_run_eq TestTokenSource.next n _⟩
  rw [expand_run_eq]

/-- Witness for C8: empty table, stream [A], two pulls. -/
theorem c8_expansion_idempotent_witness :
    runSource (MacroExpandingTokenSource.next
        (MacroExpandingTokenSource.next TestTokenSource.next)) 2
      ⟨Macros.new, ⟨Macros.new,
        TestTokenSource.new [PreprocessingToken.Identifier ("A")]⟩⟩
      = runSource (MacroExpandingTokenSource.next TestTokenSource.next) 2
        ⟨Macros.new, TestTokenSource.new [PreprocessingToken.Identifier ("A")]⟩
    ∧ runSource (MacroExpandingTokenSource.next TestTokenSource.next) 2
        ⟨Macros.new, TestTokenSource.new [PreprocessingToken.Identifier ("A")]⟩
      = runSource TestTokenSource.next 2
        (TestTokenSource.new [PreprocessingToken.Identifier ("A")]) :=
  c8_expansion_idempotent Macros.new [PreprocessingToken.Identifier ("A")]
    (by decide) 2

/-- C9: the observed output of the expander is independent of the macro
table — two expanders over the same upstream state but arbitrary
(possibly different) tables produce identical runs. -/
theorem c9_table_independent {σ : Type}
    (up : SourceImpl σ PreprocessingToken String)
    (m₁ m₂ : Macros) (u : σ) (n : Nat) :
    runSource (MacroExpandingTokenSource.next up) n ⟨m₁, u⟩
      = runSource (MacroExpandingTokenSource.next up) n ⟨m₂, u⟩ := by
  rw [expand_run_eq, expand_run_eq]

/-- C10: one call to `next` on the expander performs exactly one upstream
pull and nothing else: the returned atom is the upstream atom, the new
state's upstream component is the upstream state after exactly that one
pull, and the macros field is unchanged. -/
theorem c10_single_pull_macros_unchanged {σ : Type}
    (up : SourceImpl σ PreprocessingToken String) (m : Macros) (u : σ) :
    MacroExpandingTokenSource.next up ⟨m, u⟩ = ((up u).fst, ⟨m, (up u).snd⟩) :=
  expandNext_eq up ⟨m, u⟩

end RedSeaPP
